import Mathlib

/-!
Verification of the check-gpt trace correlation engine.

This file shallowly embeds the components of the repository that the
specification talks about:

* the identity resolver `getNodeSignature` (src/pkg/trace/util.go);
* the platform classifier `GetPlatformInfo` together with `IsIPInCidr`
  (src/pkg/util/platform.go), with `net.ParseIP`/`net.ParseCIDR` modelled
  for IPv4 dotted-quad addresses (the configured vendor CIDR blocks are
  all IPv4);
* the node store and the message loop of the mutex-based `Manager`
  (src/unnamed/part_013: `handleNodeMessage`, `nodeMatches`, `pollMessages`);
* the node store and the message loop of the channel-based `TraceManager`
  with its grace window (src/unnamed/part_017: `handleNodeOperations`,
  `nodeMatches`, `pollMessages`);
* the bait-image handler `handleImage` (src/internal/server/server.go),
  with the mutex-protected critical sections serialized.

Conventions of the embedding: console output is recorded as structured
items (which title/node line/request-response/error text was written)
rather than as the fully formatted ANSI strings; timestamps and the
best-effort geo lookup carry no logical content for the claims and the
lookup is modelled as an oracle `String → Option IpInfo`; Go's
`time.After` timers are modelled by a timer generation counter, a
timer-fire event being effective only if it carries the current
generation (reassigning `nodeTimeout` in Go makes older timer channels
unreadable by the select loop).
-/

namespace CheckGpt

/-- Identity resolver, from `getNodeSignature` in src/pkg/trace/util.go:
the fields are concatenated in the fixed order user-agent, forwarded-for,
ip with the separator `|` and no escaping. -/
def getNodeSignature (userAgent forwardedFor ip : String) : String :=
  userAgent ++ "|" ++ forwardedFor ++ "|" ++ ip

/-- Substring search on the underlying character lists, modelling Go's
`strings.Contains`: `subSearch sub l` is true iff `sub` occurs as a
contiguous run inside `l`. -/
def subSearch (sub : List Char) : List Char → Bool
  | [] => sub.isEmpty
  | c :: rest => List.isPrefixOf sub (c :: rest) || subSearch sub rest

/-- Go's `strings.Contains s sub`. -/
def containsSub (s sub : String) : Bool :=
  subSearch sub.toList s.toList

/-- ASCII lower-casing of one character, as `strings.ToLower` performs it
on the ASCII tokens of the pattern table. -/
def lowerChar (c : Char) : Char :=
  if 'A' ≤ c && c ≤ 'Z' then Char.ofNat (c.toNat + 32) else c

/-- Lower-case a character list. -/
def lowerStr (l : List Char) : List Char :=
  l.map lowerChar

/-- Split a character list at every occurrence of a separator character,
modelling `strings.Split` with a one-character separator (used here with
`.` and `/`). -/
def splitChar (sep : Char) : List Char → List (List Char)
  | [] => [[]]
  | c :: rest =>
    if c == sep then [] :: splitChar sep rest
    else
      match splitChar sep rest with
      | [] => [[c]]
      | g :: gs => (c :: g) :: gs

/-- The numeric value of a list of decimal digit characters. -/
def natOfDigits (l : List Char) : Nat :=
  l.foldl (fun acc c => acc * 10 + (c.toNat - 48)) 0

/-- One dotted-quad octet: decimal digits, value at most 255, no extra
leading zeros (Go's `net.ParseIP` rejects them). -/
def parseOctet (l : List Char) : Option Nat :=
  if l.isEmpty then none
  else if !(l.all Char.isDigit) then none
  else if 1 < l.length && l.headD ' ' == '0' then none
  else if natOfDigits l ≤ 255 then some (natOfDigits l) else none

/-- Go's `net.ParseIP`, modelled for IPv4 dotted-quad addresses: the
result is the 32-bit value of the address. -/
def parseIPv4 (s : String) : Option Nat :=
  match splitChar '.' s.data with
  | [a, b, c, d] =>
    match parseOctet a, parseOctet b, parseOctet c, parseOctet d with
    | some x, some y, some z, some w => some (((x * 256 + y) * 256 + z) * 256 + w)
    | _, _, _, _ => none
  | _ => none

/-- Keep the top `n` bits of a 32-bit address, clearing the rest: the
masking that `net.IPNet.Contains` performs. -/
def maskBits (addr n : Nat) : Nat :=
  addr / 2 ^ (32 - n) * 2 ^ (32 - n)

/-- Go's `net.ParseCIDR`, modelled for IPv4: returns the masked network
address and the prefix length. -/
def parseCIDR (s : String) : Option (Nat × Nat) :=
  match splitChar '/' s.data with
  | [ipPart, lenPart] =>
    if lenPart.isEmpty || !(lenPart.all Char.isDigit) then none
    else
      match parseIPv4 (String.mk ipPart) with
      | some addr =>
        if natOfDigits lenPart ≤ 32 then some (maskBits addr (natOfDigits lenPart), natOfDigits lenPart)
        else none
      | none => none
  | _ => none

/-- `IsIPInCidr` from src/pkg/util/platform.go: parse the CIDR (a parse
error yields false) and test whether the parsed IP lies in the network
(an unparsable IP yields false, as `Contains nil` does in Go). -/
def IsIPInCidr (ip cidr : String) : Bool :=
  match parseCIDR cidr with
  | none => false
  | some (net, n) =>
    match parseIPv4 ip with
    | none => false
    | some addr => maskBits addr n == net

/-- One entry of the classifier's pattern table
(src/pkg/util/platform.go `platformPattern`). -/
structure PlatformPattern where
  name : String
  patterns : List String
  caseSensitive : Bool
  deriving DecidableEq

/-- The ordered pattern table `platformPatterns` from
src/pkg/util/platform.go. -/
def platformPatterns : List PlatformPattern :=
  [⟨"Azure", ["IPS", "Azure"], true⟩,
   ⟨"OpenAI", ["OpenAI"], true⟩,
   ⟨"Python", ["python", "requests"], false⟩,
   ⟨"Node.js", ["node", "got", "axios", "fetch"], false⟩,
   ⟨"Go", ["go-http", "fasthttp"], false⟩,
   ⟨"Java", ["java", "okhttp"], false⟩,
   ⟨"PHP", ["php", "laravel", "symfony"], false⟩]

/-- Whether a table entry matches a user agent: case-sensitively via
`strings.Contains`, case-insensitively after lowering both sides, exactly
as the scan loop of `GetPlatformInfo` does. -/
def patternHits (userAgent : String) (p : PlatformPattern) : Bool :=
  p.patterns.any fun pat =>
    if p.caseSensitive then containsSub userAgent pat
    else subSearch (lowerStr pat.data) (lowerStr userAgent.data)

/-- The label built for a matching entry: `可能是` is prefixed for the
OpenAI entry, then `服务` is appended. -/
def platformLabel (name : String) : String :=
  if name == "OpenAI" then "可能是" ++ name ++ "服务" else name ++ "服务"

/-- `GetPlatformInfo` from src/pkg/util/platform.go.  The CIDR loop
returns `OpenAI服务` on the first match, which is the same value for
every match, so it is rendered as `List.any`; the pattern scan returns
the label of the first matching entry, rendered as `List.find?`. -/
def GetPlatformInfo (userAgent ip : String) (cidr : List String) : String :=
  if cidr.any (fun c => IsIPInCidr ip c) then "OpenAI服务"
  else if userAgent == "" then "未知服务"
  else
    match platformPatterns.find? (fun p => patternHits userAgent p) with
    | some p => platformLabel p.name
    | none => "未知服务,User-Agent:" ++ userAgent

/-- The OpenAI CIDR block list from `getOpenAICIDR`
(src/unnamed/part_010, pkg/config). -/
def OPENAICIDR : List String :=
  ["23.102.140.112/28", "13.66.11.96/28", "104.210.133.240/28",
   "70.37.60.192/28", "20.97.188.144/28", "20.161.76.48/28",
   "52.234.32.208/28", "52.156.132.32/28", "40.84.220.192/28",
   "23.98.178.64/28", "51.8.155.32/28", "20.246.77.240/28",
   "172.178.141.0/28", "172.178.141.192/28", "40.84.180.128/28"]

/-- The header tuple of one fetch of the bait resource
(`types.RequestHeaders`; the timestamp carries no logical content for the
claims and is omitted). -/
structure RequestHeaders where
  userAgent : String
  forwardedFor : String
  ip : String
  deriving DecidableEq

/-- Best-effort geo data returned by the external IP-info lookup. -/
structure IpInfo where
  country : String
  regionName : String
  org : String
  deriving DecidableEq

/-- One discovered hop (`types.Node`; the timestamp and the unused
`RequestInfo` field are omitted). -/
structure Node where
  ip : String := ""
  country : String := ""
  userAgent : String := ""
  forwardedFor : String := ""
  requestCount : Nat := 0
  isNew : Bool := false
  nodeIndex : Nat := 0
  regionName : String := ""
  org : String := ""
  serverName : String := ""
  deriving DecidableEq

/-- `Manager.nodeMatches` from src/unnamed/part_013: a node matches a
message when IP and user agent agree (the forwarded-for header is not
compared). -/
def nodeMatches13 (n : Node) (h : RequestHeaders) : Bool :=
  n.ip == h.ip && n.userAgent == h.userAgent

/-- `TraceManager.nodeMatches` from src/unnamed/part_017: IP, user agent
and forwarded-for must all agree. -/
def nodeMatches17 (n : Node) (h : RequestHeaders) : Bool :=
  n.ip == h.ip && n.userAgent == h.userAgent && n.forwardedFor == h.forwardedFor

/-- The in-place update performed on the first matching node: increment
`RequestCount` and clear `IsNew`. -/
def bumpNode (n : Node) : Node :=
  { n with requestCount := n.requestCount + 1, isNew := false }

/-- The search-and-update loop shared by both managers: walk the node
list, bump the first node that matches, and return the updated list
together with the updated node; `none` when no node matches. -/
def findBump (mtch : Node → RequestHeaders → Bool) (h : RequestHeaders) :
    List Node → Option (List Node × Node)
  | [] => none
  | n :: ns =>
    if mtch n h then some (bumpNode n :: ns, bumpNode n)
    else
      match findBump mtch h ns with
      | some (ns', nd) => some (n :: ns', nd)
      | none => none

/-- The node created by `Manager.handleNodeMessage` (src/unnamed/part_013)
when no existing node matches: fields from the headers, index
`len(nodes)+1`, geo fields from the IP-info oracle when it answers, and
the classifier label as `ServerName`. -/
def newNode13 (provider : String → Option IpInfo) (cidr : List String)
    (h : RequestHeaders) (idx : Nat) : Node :=
  let base : Node :=
    { ip := h.ip, userAgent := h.userAgent, nodeIndex := idx, isNew := true,
      forwardedFor := h.forwardedFor, requestCount := 1 }
  let enriched :=
    match provider h.ip with
    | some i => { base with country := i.country, regionName := i.regionName, org := i.org }
    | none => base
  { enriched with serverName := GetPlatformInfo h.userAgent h.ip cidr }

/-- `Manager.handleNodeMessage` from src/unnamed/part_013: bump the first
matching node, else append a fresh node with the next index. -/
def handleNodeMessage13 (provider : String → Option IpInfo) (cidr : List String)
    (ns : List Node) (h : RequestHeaders) : List Node × Node :=
  match findBump nodeMatches13 h ns with
  | some r => r
  | none =>
    let nn := newNode13 provider cidr h (ns.length + 1)
    (ns ++ [nn], nn)

/-- The node created by the `opHandle` branch of
`TraceManager.handleNodeOperations` (src/unnamed/part_017): no geo or
classifier enrichment happens at creation there. -/
def newNode17 (h : RequestHeaders) (idx : Nat) : Node :=
  { ip := h.ip, userAgent := h.userAgent, requestCount := 1, nodeIndex := idx,
    isNew := true, forwardedFor := h.forwardedFor }

/-- The `opHandle` branch of `TraceManager.handleNodeOperations`
(src/unnamed/part_017), reached synchronously from
`TraceManager.handleNodeMessage`. -/
def handleNodeMessage17 (ns : List Node) (h : RequestHeaders) : List Node × Node :=
  match findBump nodeMatches17 h ns with
  | some r => r
  | none =>
    let nn := newNode17 h (ns.length + 1)
    (ns ++ [nn], nn)

/-- The node store contents after a sequence of hop-seen header tuples,
for the part_013 `Manager`. -/
def runNodes13 (provider : String → Option IpInfo) (cidr : List String)
    (msgs : List RequestHeaders) : List Node :=
  msgs.foldl (fun ns h => (handleNodeMessage13 provider cidr ns h).1) []

/-- The node store contents after a sequence of hop-seen header tuples,
for the part_017 `TraceManager`. -/
def runNodes17 (msgs : List RequestHeaders) : List Node :=
  msgs.foldl (fun ns h => (handleNodeMessage17 ns h).1) []

/-- The identity actually used for deduplication by part_013's
`nodeMatches`: the (user agent, IP) pair. -/
def keyOf13 (h : RequestHeaders) : String × String :=
  (h.userAgent, h.ip)

/-- The (user agent, IP) pair stored in a node. -/
def nodeKeyOf13 (n : Node) : String × String :=
  (n.userAgent, n.ip)

/-- The full header-triple identity named by the spec (user agent,
forwarded-for, IP). -/
def keyTriple (h : RequestHeaders) : String × String × String :=
  (h.userAgent, h.forwardedFor, h.ip)

/-- Helper for `firstSight`: drop elements already seen, keep the first
occurrence of each new element. -/
def firstSightAux {α : Type} [DecidableEq α] (seen : List α) : List α → List α
  | [] => []
  | k :: ks =>
    if k ∈ seen then firstSightAux seen ks
    else k :: firstSightAux (k :: seen) ks

/-- The distinct elements of a list in order of first occurrence. -/
def firstSight {α : Type} [DecidableEq α] (l : List α) : List α :=
  firstSightAux [] l

/-- Events consumed by `Manager.pollMessages` (src/unnamed/part_013):
hop-seen messages (`MessageTypeNode`/`MessageTypeRequest`, with headers
present — nil-header messages are skipped by the code), the API outcome
carrying the rendered request and response, and the error outcome. -/
inductive Ev13
  | node (h : RequestHeaders)
  | api (request response : String)
  | error (content : String)
  deriving DecidableEq

/-- Structured record of what part_013's `Manager` writes: a section
title, the incremental line for a newly discovered node, the formatted
request/response pair, or an error line. -/
inductive OutLine
  | title (s : String)
  | nodeLine (idx : Nat)
  | reqResp (request response : String)
  | errLine (s : String)
  deriving DecidableEq

/-- State of part_013's `Manager` loop: the node store, the recorded
output, and whether `done` has been closed (after which `pollMessages`
has returned and consumes nothing further). -/
structure MState where
  nodes : List Node := []
  out : List OutLine := []
  done : Bool := false
  deriving DecidableEq

/-- One iteration of `Manager.pollMessages` (src/unnamed/part_013).  A
hop message resolves the node and prints the incremental line for a new
node (with the `节点链路` title before the first one); an API outcome with
an empty store reports `未检测到任何节点` and finalizes; an API outcome
with nodes prints the request/response and finalizes; an error outcome
prints the error and finalizes.  After `done`, nothing is processed. -/
def step13 (provider : String → Option IpInfo) (cidr : List String)
    (s : MState) (e : Ev13) : MState :=
  if s.done then s
  else
    match e with
    | .node h =>
      let r := handleNodeMessage13 provider cidr s.nodes h
      let out1 :=
        if r.2.isNew && r.2.nodeIndex == 1 then s.out ++ [.title "节点链路"] else s.out
      let out2 := if r.2.isNew then out1 ++ [.nodeLine r.2.nodeIndex] else out1
      { s with nodes := r.1, out := out2 }
    | .api request response =>
      if s.nodes.length == 0 then
        { s with out := s.out ++ [.title "请求响应", .errLine "未检测到任何节点"], done := true }
      else
        { s with out := s.out ++ [.title "请求响应", .reqResp request response], done := true }
    | .error c =>
      { s with out := s.out ++ [.title "请求响应", .errLine c], done := true }

/-- Run part_013's `Manager` loop over a list of events. -/
def run13 (provider : String → Option IpInfo) (cidr : List String)
    (evs : List Ev13) : MState :=
  evs.foldl (step13 provider cidr) {}

/-- Events consumed by `TraceManager.pollMessages` (src/unnamed/part_017):
hop-seen messages, the API outcome (content string), the error outcome,
and the firing of the `time.After` grace timer, tagged with the timer
generation it belongs to. -/
inductive Ev17
  | node (h : RequestHeaders)
  | api (content : String)
  | error (content : String)
  | timerFire (g : Nat)
  deriving DecidableEq

/-- Structured record of what part_017's `TraceManager` writes: a raw
line, the incremental line for a new node, the per-node request-count
summary of `formatNodeRequestCounts` as (index, count) pairs, the API
response, or an error line. -/
inductive TOut
  | raw (s : String)
  | nodeLine (idx : Nat)
  | counts (l : List (Nat × Nat))
  | response (s : String)
  | errLine (s : String)
  deriving DecidableEq

/-- State of part_017's `TraceManager.pollMessages` loop: the node store,
the pending API message, the `waitForNode` flag, the generation of the
currently armed grace timer (0 while the timer has never been armed),
the recorded output and whether the loop has returned. -/
structure TState where
  nodes : List Node := []
  pending : Option String := none
  waitForNode : Bool := false
  timerGen : Nat := 0
  out : List TOut := []
  finished : Bool := false
  deriving DecidableEq

/-- The (index, count) data rendered by `formatNodeRequestCounts`
(src/unnamed/part_014). -/
def requestCounts (ns : List Node) : List (Nat × Nat) :=
  ns.map fun n => (n.nodeIndex, n.requestCount)

/-- One iteration of `TraceManager.pollMessages` (src/unnamed/part_017).
A hop message resolves the node, prints the incremental line for a new
node, and re-arms the grace timer when `waitForNode` is set (bumping the
timer generation, which makes any previously started timer stale); an
API outcome stores the message as pending, sets `waitForNode` and arms
the timer; an error outcome writes the request counts and the error and
returns; a timer fire is effective only when it carries the current
generation of an armed timer, and then writes the request-count summary,
the pending response, the `未检测到任何节点` error when the store is
empty, and returns. -/
def step17 (s : TState) (e : Ev17) : TState :=
  if s.finished then s
  else
    match e with
    | .node h =>
      let r := handleNodeMessage17 s.nodes h
      let out1 :=
        if r.2.isNew && r.2.nodeIndex == 1 then s.out ++ [.raw "节点链路："] else s.out
      let out2 := if r.2.isNew then out1 ++ [.nodeLine r.2.nodeIndex] else out1
      if s.waitForNode then
        { s with nodes := r.1, out := out2, timerGen := s.timerGen + 1 }
      else
        { s with nodes := r.1, out := out2 }
    | .api c =>
      { s with pending := some c, waitForNode := true, timerGen := s.timerGen + 1 }
    | .error c =>
      { s with out := s.out ++ [.counts (requestCounts s.nodes), .errLine c],
               finished := true }
    | .timerFire g =>
      if g == s.timerGen && s.timerGen != 0 then
        match s.pending with
        | some c =>
          { s with
            out := s.out ++ [.raw "节点请求次数：", .counts (requestCounts s.nodes),
                             .response c] ++
                   (if s.nodes.length == 0 then [.errLine "未检测到任何节点"] else []),
            finished := true }
        | none => s
      else s

/-- Run part_017's `TraceManager` loop over a list of events. -/
def run17 (evs : List Ev17) : TState :=
  evs.foldl step17 {}

/-- Run part_017's `TraceManager` loop over a list of events from a given
state. -/
def run17From (s : TState) (evs : List Ev17) : TState :=
  evs.foldl step17 s

/-- The node store fold of part_017's `TraceManager`, from a given
store. -/
def foldNodes17 (init : List Node) (msgs : List RequestHeaders) : List Node :=
  msgs.foldl (fun ns h => (handleNodeMessage17 ns h).1) init

/-- State of the bait-image cache of `Server`
(src/internal/server/server.go): the cached captcha bytes and how many
times the generator has been invoked. -/
structure Srv where
  cache : Option (List Nat) := none
  genCalls : Nat := 0
  deriving DecidableEq

/-- The HTTP response of `handleImage`, reduced to its logical content:
404 for a wrong request id, 500 when generation fails, or the served
payload bytes. -/
inductive ImgResp
  | notFound
  | serverErr
  | okBytes (bytes : List Nat)
  deriving DecidableEq

/-- `Server.handleImage` (src/internal/server/server.go) with the
mutex-protected critical section serialized: reject a wrong request id,
generate the captcha only when the cache is empty (a failed generation
leaves the cache empty and answers 500), and serve the cached bytes.
The generator is an oracle indexed by the invocation count, so distinct
invocations may yield different bytes. -/
def handleImage (gen : Nat → Option (List Nat)) (expectedID : String)
    (s : Srv) (reqID : String) : Srv × ImgResp :=
  if reqID != expectedID then (s, .notFound)
  else
    match s.cache with
    | some img => (s, .okBytes img)
    | none =>
      match gen s.genCalls with
      | none => ({ s with genCalls := s.genCalls + 1 }, .serverErr)
      | some img => ({ cache := some img, genCalls := s.genCalls + 1 }, .okBytes img)

/-- Serve a sequence of image requests (their `id` query values),
collecting the responses. -/
def runImages (gen : Nat → Option (List Nat)) (expectedID : String)
    (reqs : List String) : Srv × List ImgResp :=
  reqs.foldl
    (fun acc r =>
      let p := handleImage gen expectedID acc.1 r
      (p.1, acc.2 ++ [p.2]))
    ({}, [])

/-! ## Helper lemmas -/

theorem find?_append_first {α : Type} (pred : α → Bool) :
    ∀ (l1 : List α) (p : α) (l2 : List α), (∀ q ∈ l1, pred q = false) → pred p = true →
      List.find? pred (l1 ++ p :: l2) = some p := by
  intro l1 p l2 h1 hp
  induction l1 with
  | nil => simp [List.find?, hp]
  | cons a as ih =>
    have ha : pred a = false := h1 a (List.mem_cons_self a as)
    simp only [List.cons_append, List.find?, ha]
    exact ih fun q hq => h1 q (List.mem_cons_of_mem a hq)

theorem patternHits_empty_ua : ∀ p ∈ platformPatterns, patternHits "" p = false := by
  decide

theorem platformLabel_ne_bare_openai :
    ∀ q ∈ platformPatterns, platformLabel q.name ≠ "OpenAI服务" := by
  decide

theorem fallback_ne_of_short (userAgent target : String)
    (hlen : target.length < 16) :
    "未知服务,User-Agent:" ++ userAgent ≠ target := by
  intro h
  have hd := congrArg String.length h
  rw [String.length_append] at hd
  have h16 : ("未知服务,User-Agent:" : String).length = 16 := by decide
  omega

/-! ## C5: identity signature -/

/-- C5: the claim that `(A, "", C)` and `(A, B, "")` never produce the
same signature fails as stated, because the fields are not
separator-sanitized: with `A = "a"`, `B = "|"`, `C = "|"` the two
distinct header tuples collide on the signature `a|||`. -/
theorem c5_counterexample :
    (("a", "", "|") : String × String × String) ≠ ("a", "|", "") ∧
    getNodeSignature "a" "" "|" = getNodeSignature "a" "|" "" := by
  constructor
  · decide
  · rfl

/-- C5 (amended): the signature is the fixed-order concatenation with
separator `|`, and for all field values `A`, `B`, `C` such that `B` does
not contain the separator and `(B, C) ≠ ("", "")`, the tuples
`(A, "", C)` and `(A, B, "")` never produce the same signature. -/
theorem c5_sig_amended (A B C : String) (hB : '|' ∉ B.data)
    (hBC : B ≠ "" ∨ C ≠ "") :
    getNodeSignature A "" C ≠ getNodeSignature A B "" := by
  intro h
  unfold getNodeSignature at h
  have hd := congrArg String.data h
  simp only [String.data_append] at hd
  have hd' : ("|" : String).data ++ ("" : String).data ++ ("|" : String).data ++ C.data =
      ("|" : String).data ++ B.data ++ ("|" : String).data ++ ("" : String).data := by
    have := List.append_cancel_left (by simpa [List.append_assoc] using hd :
      A.data ++ (("|" : String).data ++ (("" : String).data ++ (("|" : String).data ++ C.data))) =
      A.data ++ (("|" : String).data ++ (B.data ++ (("|" : String).data ++ ("" : String).data))))
    simpa [List.append_assoc] using this
  have hcore : '|' :: C.data = B.data ++ ['|'] := by
    simpa using hd'
  cases hB' : B.data with
  | nil =>
    rw [hB'] at hcore
    simp at hcore
    have hBempty : B = "" := String.ext (by simp [hB'])
    have hCempty : C = "" := String.ext (by simp [hcore])
    rcases hBC with hne | hne
    · exact hne hBempty
    · exact hne hCempty
  | cons b bs =>
    have hb : b = '|' := by
      have := congrArg (fun l => l.headD ' ') hcore
      simpa [hB'] using this.symm
    exact hB (by rw [hB', hb]; exact List.mem_cons_self _ _)

/-- Witness for the amended C5 at a concrete tuple. -/
theorem c5_sig_amended_witness :
    '|' ∉ ("10.0.0.1" : String).data ∧
    getNodeSignature "Go-http-client/1.1" "" "1.2.3.4" ≠
      getNodeSignature "Go-http-client/1.1" "10.0.0.1" "" := by
  refine ⟨by decide, ?_⟩
  exact c5_sig_amended "Go-http-client/1.1" "10.0.0.1" "1.2.3.4" (by decide) (Or.inl (by decide))

/-! ## C6: CIDR match outranks pattern match -/

/-- C6: for every user agent and every source IP, if the IP falls inside
any configured vendor CIDR block then `GetPlatformInfo` returns the
vendor label `OpenAI服务`, regardless of the user agent: the CIDR loop
runs before the user-agent pattern scan and returns immediately. -/
theorem c6_cidr_outranks (userAgent ip : String) (cidr : List String) (c : String)
    (hc : c ∈ cidr) (hin : IsIPInCidr ip c = true) :
    GetPlatformInfo userAgent ip cidr = "OpenAI服务" := by
  unfold GetPlatformInfo
  rw [if_pos (List.any_eq_true.mpr ⟨c, hc, hin⟩)]

/-- Witness for C6: an IP inside the first configured OpenAI CIDR block
is labelled `OpenAI服务` even though the user agent matches the Python
pattern. -/
theorem c6_cidr_outranks_witness :
    IsIPInCidr "23.102.140.115" "23.102.140.112/28" = true ∧
    GetPlatformInfo "python-requests/2.28" "23.102.140.115" OPENAICIDR = "OpenAI服务" := by
  refine ⟨by decide, ?_⟩
  exact c6_cidr_outranks "python-requests/2.28" "23.102.140.115" OPENAICIDR
    "23.102.140.112/28" (by decide) (by decide)

/-! ## C7: case-insensitive library patterns, exact-case brand markers -/

/-- C7: (1) when no CIDR block matches, a table entry that is the first
to match the user agent determines the returned label; (2) matching of a
case-insensitive entry depends only on the lower-cased user agent, so it
is invariant under re-casing; (3) the OpenAI brand marker matches only in
its exact case: without the literal `OpenAI` the hedged OpenAI label is
never returned; (4) likewise the Azure brand markers `IPS` and `Azure`
match only in their exact case. -/
theorem c7_patterns :
    (∀ (userAgent ip : String) (cidr : List String)
        (l1 : List PlatformPattern) (p : PlatformPattern) (l2 : List PlatformPattern),
        platformPatterns = l1 ++ p :: l2 →
        cidr.any (fun c => IsIPInCidr ip c) = false →
        (∀ q ∈ l1, patternHits userAgent q = false) →
        patternHits userAgent p = true →
        GetPlatformInfo userAgent ip cidr = platformLabel p.name) ∧
    (∀ (ua ua' : String) (p : PlatformPattern), p.caseSensitive = false →
        lowerStr ua.data = lowerStr ua'.data →
        patternHits ua p = patternHits ua' p) ∧
    (∀ (userAgent ip : String) (cidr : List String),
        cidr.any (fun c => IsIPInCidr ip c) = false →
        containsSub userAgent "OpenAI" = false →
        GetPlatformInfo userAgent ip cidr ≠ "可能是OpenAI服务") ∧
    (∀ (userAgent ip : String) (cidr : List String),
        cidr.any (fun c => IsIPInCidr ip c) = false →
        containsSub userAgent "IPS" = false → containsSub userAgent "Azure" = false →
        GetPlatformInfo userAgent ip cidr ≠ "Azure服务") := by
  refine ⟨?_, ?_, ?_, ?_⟩
  · intro userAgent ip cidr l1 p l2 htab hcidr h1 hp
    have hpmem : p ∈ platformPatterns := by
      rw [htab]; exact List.mem_append_right _ (List.mem_cons_self _ _)
    have hua : ¬ userAgent = "" := by
      intro h
      rw [h] at hp
      rw [patternHits_empty_ua p hpmem] at hp
      exact Bool.false_ne_true hp
    unfold GetPlatformInfo
    rw [if_neg (by rw [hcidr]; exact Bool.false_ne_true),
        if_neg (by simpa using hua), htab, find?_append_first _ l1 p l2 h1 hp]
  · intro ua ua' p hcs hlow
    simp only [patternHits, hcs]
    simp [hlow]
  · intro userAgent ip cidr hcidr hopenai
    by_cases hua : userAgent = ""
    · subst hua
      unfold GetPlatformInfo
      rw [if_neg (by rw [hcidr]; exact Bool.false_ne_true), if_pos (by decide)]
      decide
    · unfold GetPlatformInfo
      rw [if_neg (by rw [hcidr]; exact Bool.false_ne_true), if_neg (by simpa using hua)]
      cases hfind : platformPatterns.find? (fun p => patternHits userAgent p) with
      | none => exact fallback_ne_of_short userAgent _ (by decide)
      | some q =>
        have hqmem : q ∈ platformPatterns := List.mem_of_find?_eq_some hfind
        have hqhits : patternHits userAgent q = true := List.find?_some hfind
        show platformLabel q.name ≠ "可能是OpenAI服务"
        intro hlabel
        have hq : q = (⟨"OpenAI", ["OpenAI"], true⟩ : PlatformPattern) := by
          have hchar : ∀ r ∈ platformPatterns, platformLabel r.name = "可能是OpenAI服务" →
              r = (⟨"OpenAI", ["OpenAI"], true⟩ : PlatformPattern) := by decide
          exact hchar q hqmem hlabel
        rw [hq] at hqhits
        simp [patternHits, hopenai] at hqhits
  · intro userAgent ip cidr hcidr hips hazure
    by_cases hua : userAgent = ""
    · subst hua
      unfold GetPlatformInfo
      rw [if_neg (by rw [hcidr]; exact Bool.false_ne_true), if_pos (by decide)]
      decide
    · unfold GetPlatformInfo
      rw [if_neg (by rw [hcidr]; exact Bool.false_ne_true), if_neg (by simpa using hua)]
      cases hfind : platformPatterns.find? (fun p => patternHits userAgent p) with
      | none => exact fallback_ne_of_short userAgent _ (by decide)
      | some q =>
        have hqmem : q ∈ platformPatterns := List.mem_of_find?_eq_some hfind
        have hqhits : patternHits userAgent q = true := List.find?_some hfind
        show platformLabel q.name ≠ "Azure服务"
        intro hlabel
        have hq : q = (⟨"Azure", ["IPS", "Azure"], true⟩ : PlatformPattern) := by
          have hchar : ∀ r ∈ platformPatterns, platformLabel r.name = "Azure服务" →
              r = (⟨"Azure", ["IPS", "Azure"], true⟩ : PlatformPattern) := by decide
          exact hchar q hqmem hlabel
        rw [hq] at hqhits
        simp [patternHits, hips, hazure] at hqhits

/-- Witness for C7: the mixed-case user agent `PyThOn-Requests/2.0`
matches the case-insensitive Python entry (which is the first matching
entry: the case-sensitive brand entries before it do not match) and is
labelled `Python服务`; the re-cased variants have equal lower-casings;
and `openai-client`, which contains the OpenAI token only in the wrong
case, is not given either OpenAI label. -/
theorem c7_patterns_witness :
    GetPlatformInfo "PyThOn-Requests/2.0" "1.2.3.4" [] = "Python服务" ∧
    patternHits "PYTHON-REQUESTS/2.0" (⟨"Python", ["python", "requests"], false⟩ : PlatformPattern) =
      patternHits "python-requests/2.0" (⟨"Python", ["python", "requests"], false⟩ : PlatformPattern) ∧
    GetPlatformInfo "openai-client" "1.2.3.4" [] ≠ "可能是OpenAI服务" := by
  refine ⟨?_, ?_, ?_⟩
  · have h := c7_patterns.1 "PyThOn-Requests/2.0" "1.2.3.4" []
      [⟨"Azure", ["IPS", "Azure"], true⟩, ⟨"OpenAI", ["OpenAI"], true⟩]
      (⟨"Python", ["python", "requests"], false⟩ : PlatformPattern)
      [⟨"Node.js", ["node", "got", "axios", "fetch"], false⟩,
       ⟨"Go", ["go-http", "fasthttp"], false⟩,
       ⟨"Java", ["java", "okhttp"], false⟩,
       ⟨"PHP", ["php", "laravel", "symfony"], false⟩]
      (by decide) (by decide) (by decide) (by decide)
    simpa using h
  · exact c7_patterns.2.1 "PYTHON-REQUESTS/2.0" "python-requests/2.0"
      (⟨"Python", ["python", "requests"], false⟩ : PlatformPattern) (by decide) (by decide)
  · exact c7_patterns.2.2.1 "openai-client" "1.2.3.4" [] (by decide) (by decide)

/-! ## C10: the bare OpenAI label is CIDR-only -/

/-- C10: `GetPlatformInfo` returns the bare authoritative label
`OpenAI服务` exactly when the source IP lies inside one of the configured
CIDR blocks; outside them, a user agent carrying the exact-case OpenAI
brand token (and no Azure token, which would be matched first) receives
the hedged label `可能是OpenAI服务` instead. -/
theorem c10_bare_openai_iff_cidr :
    (∀ (userAgent ip : String) (cidr : List String),
        GetPlatformInfo userAgent ip cidr = "OpenAI服务" ↔
        cidr.any (fun c => IsIPInCidr ip c) = true) ∧
    (∀ (userAgent ip : String) (cidr : List String),
        cidr.any (fun c => IsIPInCidr ip c) = false →
        containsSub userAgent "IPS" = false → containsSub userAgent "Azure" = false →
        containsSub userAgent "OpenAI" = true →
        GetPlatformInfo userAgent ip cidr = "可能是OpenAI服务") := by
  constructor
  · intro userAgent ip cidr
    constructor
    · intro h
      by_contra hany
      have hany' : cidr.any (fun c => IsIPInCidr ip c) = false := by
        cases hval : cidr.any (fun c => IsIPInCidr ip c) with
        | false => rfl
        | true => exact absurd hval hany
      unfold GetPlatformInfo at h
      rw [if_neg (by rw [hany']; exact Bool.false_ne_true)] at h
      by_cases hua : userAgent = ""
      · rw [if_pos (by simpa using hua)] at h
        exact absurd h (by decide)
      · rw [if_neg (by simpa using hua)] at h
        cases hfind : platformPatterns.find? (fun p => patternHits userAgent p) with
        | none =>
          rw [hfind] at h
          exact fallback_ne_of_short userAgent _ (by decide) h
        | some q =>
          rw [hfind] at h
          exact platformLabel_ne_bare_openai q (List.mem_of_find?_eq_some hfind) h
    · intro h
      unfold GetPlatformInfo
      rw [if_pos h]
  · intro userAgent ip cidr hcidr hips hazure hopenai
    have hua : ¬ userAgent = "" := by
      intro h
      rw [h] at hopenai
      exact absurd hopenai (by decide)
    unfold GetPlatformInfo
    rw [if_neg (by rw [hcidr]; exact Bool.false_ne_true), if_neg (by simpa using hua)]
    have hazureEntry :
        patternHits userAgent (⟨"Azure", ["IPS", "Azure"], true⟩ : PlatformPattern) = false := by
      simp [patternHits, hips, hazure]
    have hopenaiEntry :
        patternHits userAgent (⟨"OpenAI", ["OpenAI"], true⟩ : PlatformPattern) = true := by
      simp [patternHits, hopenai]
    have hfind :
        platformPatterns.find? (fun p => patternHits userAgent p) =
          some (⟨"OpenAI", ["OpenAI"], true⟩ : PlatformPattern) := by
      have := find?_append_first (fun p => patternHits userAgent p)
        [(⟨"Azure", ["IPS", "Azure"], true⟩ : PlatformPattern)]
        (⟨"OpenAI", ["OpenAI"], true⟩ : PlatformPattern)
        [⟨"Python", ["python", "requests"], false⟩,
         ⟨"Node.js", ["node", "got", "axios", "fetch"], false⟩,
         ⟨"Go", ["go-http", "fasthttp"], false⟩,
         ⟨"Java", ["java", "okhttp"], false⟩,
         ⟨"PHP", ["php", "laravel", "symfony"], false⟩]
        (by intro q hq; rw [List.mem_singleton] at hq; rw [hq]; exact hazureEntry)
        hopenaiEntry
      simpa [platformPatterns] using this
    rw [hfind]
    rfl

/-- Witness for C10: `23.102.140.115` lies in a configured CIDR block and
gets the bare label; the user agent `OpenAI Image Downloader` outside the
blocks gets only the hedged label. -/
theorem c10_bare_openai_iff_cidr_witness :
    GetPlatformInfo "OpenAI Image Downloader" "23.102.140.115" OPENAICIDR = "OpenAI服务" ∧
    GetPlatformInfo "OpenAI Image Downloader" "9.9.9.9" OPENAICIDR = "可能是OpenAI服务" := by
  constructor
  · exact (c10_bare_openai_iff_cidr.1 "OpenAI Image Downloader" "23.102.140.115" OPENAICIDR).mpr
      (by decide)
  · exact c10_bare_openai_iff_cidr.2 "OpenAI Image Downloader" "9.9.9.9" OPENAICIDR
      (by decide) (by decide) (by decide) (by decide)

/-! ## Node store lemmas -/

theorem firstSightAux_append_single {α : Type} [DecidableEq α] :
    ∀ (xs seen : List α) (x : α),
      firstSightAux seen (xs ++ [x]) =
        firstSightAux seen xs ++ (if x ∈ seen ∨ x ∈ xs then [] else [x]) := by
  intro xs
  induction xs with
  | nil =>
    intro seen x
    by_cases hx : x ∈ seen
    · simp [firstSightAux, hx]
    · simp [firstSightAux, hx]
  | cons a as ih =>
    intro seen x
    by_cases ha : a ∈ seen
    · have hcond : (x ∈ seen ∨ x ∈ as) ↔ (x ∈ seen ∨ x ∈ a :: as) := by
        constructor
        · rintro (h | h)
          · exact Or.inl h
          · exact Or.inr (List.mem_cons_of_mem a h)
        · rintro (h | h)
          · exact Or.inl h
          · rcases List.mem_cons.mp h with rfl | h
            · exact Or.inl ha
            · exact Or.inr h
      simp only [List.cons_append, firstSightAux, List.append_eq, if_pos ha]
      rw [ih seen x, if_congr hcond rfl rfl]
    · have hcond : (x ∈ a :: seen ∨ x ∈ as) ↔ (x ∈ seen ∨ x ∈ a :: as) := by
        constructor
        · rintro (h | h)
          · rcases List.mem_cons.mp h with rfl | h
            · exact Or.inr (List.mem_cons_self _ _)
            · exact Or.inl h
          · exact Or.inr (List.mem_cons_of_mem a h)
        · rintro (h | h)
          · exact Or.inl (List.mem_cons_of_mem a h)
          · rcases List.mem_cons.mp h with rfl | h
            · exact Or.inl (List.mem_cons_self _ _)
            · exact Or.inr h
      simp only [List.cons_append, firstSightAux, List.append_eq, if_neg ha]
      rw [ih (a :: seen) x, if_congr hcond rfl rfl]

theorem firstSight_append_single {α : Type} [DecidableEq α] (xs : List α) (x : α) :
    firstSight (xs ++ [x]) =
      if x ∈ xs then firstSight xs else firstSight xs ++ [x] := by
  unfold firstSight
  rw [firstSightAux_append_single]
  by_cases hx : x ∈ xs
  · simp [hx]
  · simp [hx]

theorem mem_firstSightAux {α : Type} [DecidableEq α] :
    ∀ (l seen : List α) (x : α),
      x ∈ firstSightAux seen l ↔ (x ∈ l ∧ x ∉ seen) := by
  intro l
  induction l with
  | nil => intro seen x; simp [firstSightAux]
  | cons k ks ih =>
    intro seen x
    by_cases hk : k ∈ seen
    · rw [firstSightAux, if_pos hk, ih]
      constructor
      · rintro ⟨h1, h2⟩
        exact ⟨List.mem_cons_of_mem k h1, h2⟩
      · rintro ⟨h1, h2⟩
        rcases List.mem_cons.mp h1 with rfl | h1
        · exact absurd hk h2
        · exact ⟨h1, h2⟩
    · rw [firstSightAux, if_neg hk]
      constructor
      · intro h
        rcases List.mem_cons.mp h with rfl | h
        · exact ⟨List.mem_cons_self x ks, hk⟩
        · rcases (ih (k :: seen) x).mp h with ⟨h1, h2⟩
          exact ⟨List.mem_cons_of_mem k h1,
            fun hs => h2 (List.mem_cons_of_mem k hs)⟩
      · rintro ⟨h1, h2⟩
        rcases List.mem_cons.mp h1 with rfl | h1
        · exact List.mem_cons_self x _
        · by_cases hxk : x = k
          · subst hxk; exact List.mem_cons_self x _
          · exact List.mem_cons_of_mem k ((ih (k :: seen) x).mpr
              ⟨h1, fun hs => by
                rcases List.mem_cons.mp hs with h | h
                · exact hxk h
                · exact h2 h⟩)

theorem mem_firstSight {α : Type} [DecidableEq α] (l : List α) (x : α) :
    x ∈ firstSight l ↔ x ∈ l := by
  unfold firstSight
  rw [mem_firstSightAux]
  simp

theorem nodup_firstSightAux {α : Type} [DecidableEq α] :
    ∀ (l seen : List α), (firstSightAux seen l).Nodup := by
  intro l
  induction l with
  | nil => intro seen; simp [firstSightAux]
  | cons k ks ih =>
    intro seen
    by_cases hk : k ∈ seen
    · rw [firstSightAux, if_pos hk]
      exact ih seen
    · rw [firstSightAux, if_neg hk]
      refine List.nodup_cons.mpr ⟨?_, ih (k :: seen)⟩
      intro hmem
      exact ((mem_firstSightAux ks (k :: seen) k).mp hmem).2 (List.mem_cons_self k seen)

theorem nodup_firstSight {α : Type} [DecidableEq α] (l : List α) :
    (firstSight l).Nodup :=
  nodup_firstSightAux l []

theorem findBump_eq_none {mtch : Node → RequestHeaders → Bool} {h : RequestHeaders} :
    ∀ {ns : List Node}, findBump mtch h ns = none → ∀ n ∈ ns, mtch n h = false := by
  intro ns
  induction ns with
  | nil => intro _ n hn; exact absurd hn (List.not_mem_nil n)
  | cons n0 ns0 ih =>
    intro hnone n hn
    by_cases hm : mtch n0 h = true
    · rw [findBump, if_pos hm] at hnone
      exact absurd hnone (by simp)
    · rw [findBump, if_neg hm] at hnone
      rcases List.mem_cons.mp hn with rfl | hn
      · cases hval : mtch n h with
        | false => rfl
        | true => exact absurd hval hm
      · cases hfb : findBump mtch h ns0 with
        | none => exact ih hfb n hn
        | some r => rw [hfb] at hnone; exact absurd hnone (by simp)

theorem findBump_eq_some {mtch : Node → RequestHeaders → Bool} {h : RequestHeaders} :
    ∀ {ns ns' : List Node} {nd : Node}, findBump mtch h ns = some (ns', nd) →
      ∃ i, ∃ hi : i < ns.length,
        mtch (ns.get ⟨i, hi⟩) h = true ∧
        nd = bumpNode (ns.get ⟨i, hi⟩) ∧
        ns' = ns.set i nd := by
  intro ns
  induction ns with
  | nil => intro ns' nd hsome; exact absurd hsome (by simp [findBump])
  | cons n0 ns0 ih =>
    intro ns' nd hsome
    by_cases hm : mtch n0 h = true
    · rw [findBump, if_pos hm] at hsome
      injection hsome with hpair
      injection hpair with h1 h2
      refine ⟨0, Nat.succ_pos _, ?_, ?_, ?_⟩
      · exact hm
      · rw [← h2]
        rfl
      · rw [← h1, ← h2]
        rfl
    · rw [findBump, if_neg hm] at hsome
      cases hfb : findBump mtch h ns0 with
      | none => rw [hfb] at hsome; exact absurd hsome (by simp)
      | some r =>
        obtain ⟨ns0', nd0⟩ := r
        rw [hfb] at hsome
        injection hsome with hpair
        injection hpair with h1 h2
        obtain ⟨i0, hi0, hmatch, hnd, hset⟩ := ih hfb
        refine ⟨i0 + 1, Nat.succ_lt_succ hi0, ?_, ?_, ?_⟩
        · exact hmatch
        · rw [← h2]
          exact hnd
        · rw [← h1, ← h2]
          show n0 :: ns0' = n0 :: ns0.set i0 nd0
          rw [hset]

theorem list_map_set {α β : Type} (f : α → β) :
    ∀ (l : List α) (i : Nat) (b : α), (l.set i b).map f = (l.map f).set i (f b) := by
  intro l
  induction l with
  | nil => intro i b; simp
  | cons a as ih =>
    intro i b
    cases i with
    | zero => simp [List.set]
    | succ n => simp [List.set, ih]

theorem list_set_get_self {α : Type} :
    ∀ (l : List α) (i : Nat) (hi : i < l.length), l.set i (l.get ⟨i, hi⟩) = l := by
  intro l
  induction l with
  | nil => intro i hi; simp at hi
  | cons a as ih =>
    intro i hi
    cases i with
    | zero => rfl
    | succ n => simp only [List.set, List.get]; rw [ih]

theorem list_get_set_eq {α : Type} :
    ∀ (l : List α) (i : Nat) (b : α) (hi : i < (l.set i b).length),
      (l.set i b).get ⟨i, hi⟩ = b := by
  intro l
  induction l with
  | nil => intro i b hi; simp at hi
  | cons a as ih =>
    intro i b hi
    cases i with
    | zero => rfl
    | succ n => exact ih n b (by simpa using hi)

theorem list_get_set_ne {α : Type} :
    ∀ (l : List α) (i j : Nat) (b : α) (hj : j < (l.set i b).length) (hne : i ≠ j),
      (l.set i b).get ⟨j, hj⟩ = l.get ⟨j, by simpa using hj⟩ := by
  intro l
  induction l with
  | nil => intro i j b hj hne; simp at hj
  | cons a as ih =>
    intro i j b hj hne
    cases i with
    | zero =>
      cases j with
      | zero => exact absurd rfl hne
      | succ m => rfl
    | succ n =>
      cases j with
      | zero => rfl
      | succ m => exact ih n m b (by simpa using hj) (fun hc => hne (by rw [hc]))

theorem list_get_map {α β : Type} (f : α → β) :
    ∀ (l : List α) (i : Nat) (hi : i < (l.map f).length),
      (l.map f).get ⟨i, hi⟩ = f (l.get ⟨i, by simpa using hi⟩) := by
  intro l
  induction l with
  | nil => intro i hi; simp at hi
  | cons a as ih =>
    intro i hi
    cases i with
    | zero => rfl
    | succ n => exact ih n (by simpa using hi)

theorem list_get_append_left {α : Type} :
    ∀ (l1 l2 : List α) (i : Nat) (hi : i < l1.length) (hi2 : i < (l1 ++ l2).length),
      (l1 ++ l2).get ⟨i, hi2⟩ = l1.get ⟨i, hi⟩ := by
  intro l1
  induction l1 with
  | nil => intro l2 i hi; simp at hi
  | cons a as ih =>
    intro l2 i hi hi2
    cases i with
    | zero => rfl
    | succ n => exact ih l2 n (by simpa using hi) (by simpa using hi2)

theorem list_get_concat_length {α : Type} :
    ∀ (l : List α) (a : α) (hi : l.length < (l ++ [a]).length),
      (l ++ [a]).get ⟨l.length, hi⟩ = a := by
  intro l
  induction l with
  | nil => intro a hi; rfl
  | cons b bs ih => intro a hi; exact ih a (by simp)

theorem nodeMatches13_iff (n : Node) (h : RequestHeaders) :
    nodeMatches13 n h = true ↔ nodeKeyOf13 n = keyOf13 h := by
  simp only [nodeMatches13, nodeKeyOf13, keyOf13, Bool.and_eq_true, beq_iff_eq,
    Prod.mk.injEq]
  constructor
  · rintro ⟨h1, h2⟩; exact ⟨h2, h1⟩
  · rintro ⟨h1, h2⟩; exact ⟨h2, h1⟩

theorem nodeKeyOf13_bumpNode (n : Node) : nodeKeyOf13 (bumpNode n) = nodeKeyOf13 n := rfl

theorem bumpNode_nodeIndex (n : Node) : (bumpNode n).nodeIndex = n.nodeIndex := rfl

theorem bumpNode_requestCount (n : Node) :
    (bumpNode n).requestCount = n.requestCount + 1 := rfl

theorem newNode13_key (provider : String → Option IpInfo) (cidr : List String)
    (h : RequestHeaders) (idx : Nat) :
    nodeKeyOf13 (newNode13 provider cidr h idx) = keyOf13 h := by
  cases hp : provider h.ip <;> simp [newNode13, nodeKeyOf13, keyOf13, hp]

theorem newNode13_nodeIndex (provider : String → Option IpInfo) (cidr : List String)
    (h : RequestHeaders) (idx : Nat) :
    (newNode13 provider cidr h idx).nodeIndex = idx := by
  cases hp : provider h.ip <;> simp [newNode13, hp]

theorem newNode13_requestCount (provider : String → Option IpInfo) (cidr : List String)
    (h : RequestHeaders) (idx : Nat) :
    (newNode13 provider cidr h idx).requestCount = 1 := by
  cases hp : provider h.ip <;> simp [newNode13, hp]

theorem runNodes13_snoc (provider : String → Option IpInfo) (cidr : List String)
    (msgs : List RequestHeaders) (m : RequestHeaders) :
    runNodes13 provider cidr (msgs ++ [m]) =
      (handleNodeMessage13 provider cidr (runNodes13 provider cidr msgs) m).1 := by
  simp [runNodes13, List.foldl_append]

theorem handleNodeMessage13_eq_some {provider : String → Option IpInfo}
    {cidr : List String} {ns : List Node} {m : RequestHeaders} {r : List Node × Node}
    (hfb : findBump nodeMatches13 m ns = some r) :
    handleNodeMessage13 provider cidr ns m = r := by
  unfold handleNodeMessage13
  rw [hfb]

theorem handleNodeMessage13_eq_none {provider : String → Option IpInfo}
    {cidr : List String} {ns : List Node} {m : RequestHeaders}
    (hfb : findBump nodeMatches13 m ns = none) :
    handleNodeMessage13 provider cidr ns m =
      (ns ++ [newNode13 provider cidr m (ns.length + 1)],
       newNode13 provider cidr m (ns.length + 1)) := by
  unfold handleNodeMessage13
  rw [hfb]

/-! ## C1: node store shape -/

/-- C1: the claim fails as stated, because part_013's `nodeMatches`
compares only IP and user agent: the two hop-seen events below carry two
distinct `(user_agent, forwarded_for, source_ip)` identities (they differ
in the forwarded-for header), yet processing them leaves a single hop in
the store instead of the claimed two. -/
theorem c1_store_counterexample :
    (firstSight (([⟨"curl", "ffA", "8.8.8.8"⟩, ⟨"curl", "ffB", "8.8.8.8"⟩] :
        List RequestHeaders).map keyTriple)).length = 2 ∧
    (runNodes13 (fun _ => none) []
      [⟨"curl", "ffA", "8.8.8.8"⟩, ⟨"curl", "ffB", "8.8.8.8"⟩]).length = 1 ∧
    ¬ (runNodes13 (fun _ => none) []
      [⟨"curl", "ffA", "8.8.8.8"⟩, ⟨"curl", "ffB", "8.8.8.8"⟩]).length = 2 := by
  refine ⟨?_, ?_, ?_⟩ <;> decide

/-- C1 (amended): with identity keyed by the `(user_agent, source_ip)`
pair — the key actually compared by part_013's `nodeMatches`, which
ignores `forwarded_for` — the node store after any event sequence holds
exactly the distinct identities in first-sight order, with `NodeIndex`
values `1..N` in that order and each hop's `RequestCount` equal to the
number of occurrences of its identity; in particular two fetches with
identical signatures are the same hop and never add a new index. -/
theorem c1_store_amended (provider : String → Option IpInfo) (cidr : List String)
    (msgs : List RequestHeaders) :
    (runNodes13 provider cidr msgs).map nodeKeyOf13 = firstSight (msgs.map keyOf13) ∧
    (runNodes13 provider cidr msgs).map Node.nodeIndex =
      List.range' 1 (runNodes13 provider cidr msgs).length ∧
    ∀ (i : Nat) (hi : i < (runNodes13 provider cidr msgs).length),
      ((runNodes13 provider cidr msgs).get ⟨i, hi⟩).requestCount =
        (msgs.map keyOf13).count
          (nodeKeyOf13 ((runNodes13 provider cidr msgs).get ⟨i, hi⟩)) := by
  induction msgs using List.reverseRecOn with
  | nil =>
    refine ⟨rfl, rfl, ?_⟩
    intro i hi
    simp [runNodes13] at hi
  | append_singleton ms m ih =>
    obtain ⟨ih1, ih2, ih3⟩ := ih
    rw [runNodes13_snoc]
    simp only [List.map_append, List.map_cons, List.map_nil]
    cases hfb : findBump nodeMatches13 m (runNodes13 provider cidr ms) with
    | some r =>
      obtain ⟨rl, rd⟩ := r
      have hstep : (handleNodeMessage13 provider cidr (runNodes13 provider cidr ms) m).1 = rl := by
        rw [handleNodeMessage13_eq_some hfb]
      rw [hstep]
      obtain ⟨i, hi, hmtch, hnd, hset⟩ := findBump_eq_some hfb
      subst hset
      have hkey : nodeKeyOf13 ((runNodes13 provider cidr ms).get ⟨i, hi⟩) = keyOf13 m :=
        (nodeMatches13_iff _ _).mp hmtch
      have hmemk : keyOf13 m ∈ ms.map keyOf13 := by
        have h1 : nodeKeyOf13 ((runNodes13 provider cidr ms).get ⟨i, hi⟩) ∈
            (runNodes13 provider cidr ms).map nodeKeyOf13 :=
          List.mem_map_of_mem _ (List.get_mem _ i hi)
        rw [hkey, ih1] at h1
        exact (mem_firstSight _ _).mp h1
      have hfs' : firstSight (ms.map keyOf13 ++ [keyOf13 m]) = firstSight (ms.map keyOf13) := by
        rw [firstSight_append_single, if_pos hmemk]
      have hkeyrd : nodeKeyOf13 rd = keyOf13 m := by
        rw [hnd, nodeKeyOf13_bumpNode, hkey]
      have hmapkey : ((runNodes13 provider cidr ms).set i rd).map nodeKeyOf13 =
          (runNodes13 provider cidr ms).map nodeKeyOf13 := by
        rw [list_map_set]
        have : nodeKeyOf13 rd =
            ((runNodes13 provider cidr ms).map nodeKeyOf13).get ⟨i, by simpa using hi⟩ := by
          rw [list_get_map]
          rw [hnd, nodeKeyOf13_bumpNode]
        rw [this, list_set_get_self]
      have hlen : ((runNodes13 provider cidr ms).set i rd).length =
          (runNodes13 provider cidr ms).length := by
        rw [List.length_set]
      refine ⟨?_, ?_, ?_⟩
      · rw [hmapkey, ih1, hfs']
      · have hmapidx : ((runNodes13 provider cidr ms).set i rd).map Node.nodeIndex =
            (runNodes13 provider cidr ms).map Node.nodeIndex := by
          rw [list_map_set]
          have : rd.nodeIndex =
              ((runNodes13 provider cidr ms).map Node.nodeIndex).get ⟨i, by simpa using hi⟩ := by
            rw [list_get_map]
            rw [hnd, bumpNode_nodeIndex]
          rw [this, list_set_get_self]
        rw [hmapidx, ih2, hlen]
      · intro j hj
        have hjlen : j < (runNodes13 provider cidr ms).length := by
          rw [← hlen]; exact hj
        by_cases hij : i = j
        · subst hij
          have hget : ((runNodes13 provider cidr ms).set i rd).get ⟨i, hj⟩ = rd :=
            list_get_set_eq (runNodes13 provider cidr ms) i rd hj
          rw [hget, hkeyrd, hnd, bumpNode_requestCount, ih3 i hi, hkey,
            List.count_append, List.count_cons_self, List.count_nil]
        · have hget : ((runNodes13 provider cidr ms).set i rd).get ⟨j, hj⟩ =
              (runNodes13 provider cidr ms).get ⟨j, hjlen⟩ :=
            list_get_set_ne (runNodes13 provider cidr ms) i j rd hj hij
          have hnodup : ((runNodes13 provider cidr ms).map nodeKeyOf13).Nodup := by
            rw [ih1]; exact nodup_firstSight _
          have hne : nodeKeyOf13 ((runNodes13 provider cidr ms).get ⟨j, hjlen⟩) ≠
              keyOf13 m := by
            intro hcontra
            apply hij
            have hinj := List.nodup_iff_injective_get.mp hnodup
            have e1 : ((runNodes13 provider cidr ms).map nodeKeyOf13).get
                ⟨i, by simpa using hi⟩ =
                ((runNodes13 provider cidr ms).map nodeKeyOf13).get
                ⟨j, by simpa using hjlen⟩ := by
              rw [list_get_map, list_get_map, hkey, hcontra]
            have e2 := hinj e1
            exact congrArg Fin.val e2
          rw [hget, List.count_append]
          have hz : ([keyOf13 m].count
              (nodeKeyOf13 ((runNodes13 provider cidr ms).get ⟨j, hjlen⟩))) = 0 := by
            rw [List.count_eq_zero]
            intro hcontra
            rw [List.mem_singleton] at hcontra
            exact hne hcontra
          rw [hz, Nat.add_zero, ih3 j hjlen]
    | none =>
      have hstep : (handleNodeMessage13 provider cidr (runNodes13 provider cidr ms) m).1 =
          (runNodes13 provider cidr ms) ++
            [newNode13 provider cidr m ((runNodes13 provider cidr ms).length + 1)] := by
        rw [handleNodeMessage13_eq_none hfb]
      rw [hstep]
      have hforall := findBump_eq_none hfb
      have hnotmem : keyOf13 m ∉ ms.map keyOf13 := by
        intro hcontra
        rw [← mem_firstSight, ← ih1] at hcontra
        obtain ⟨n, hn, hkeyeq⟩ := List.mem_map.mp hcontra
        have := (nodeMatches13_iff n m).mpr hkeyeq
        rw [hforall n hn] at this
        exact Bool.false_ne_true this
      refine ⟨?_, ?_, ?_⟩
      · rw [List.map_append, List.map_cons, List.map_nil, newNode13_key, ih1,
          firstSight_append_single, if_neg hnotmem]
      · rw [List.map_append, List.map_cons, List.map_nil, newNode13_nodeIndex, ih2,
          List.length_append]
        simp only [List.length_cons, List.length_nil]
        rw [List.range'_concat]
        have harith : 1 + 1 * (runNodes13 provider cidr ms).length =
            (runNodes13 provider cidr ms).length + 1 := by omega
        rw [harith]
      · intro j hj
        have hj' : j < (runNodes13 provider cidr ms).length + 1 := by
          simpa using hj
        rcases Nat.lt_succ_iff_lt_or_eq.mp hj' with hjl | hje
        · have hget : ((runNodes13 provider cidr ms) ++
              [newNode13 provider cidr m ((runNodes13 provider cidr ms).length + 1)]).get
                ⟨j, hj⟩ = (runNodes13 provider cidr ms).get ⟨j, hjl⟩ :=
            list_get_append_left _ _ j hjl hj
          rw [hget, List.count_append]
          have hmem : nodeKeyOf13 ((runNodes13 provider cidr ms).get ⟨j, hjl⟩) ∈
              ms.map keyOf13 := by
            have h1 : nodeKeyOf13 ((runNodes13 provider cidr ms).get ⟨j, hjl⟩) ∈
                (runNodes13 provider cidr ms).map nodeKeyOf13 :=
              List.mem_map_of_mem _ (List.get_mem _ j hjl)
            rw [ih1] at h1
            exact (mem_firstSight _ _).mp h1
          have hz : ([keyOf13 m].count
              (nodeKeyOf13 ((runNodes13 provider cidr ms).get ⟨j, hjl⟩))) = 0 := by
            rw [List.count_eq_zero]
            intro hcontra
            rw [List.mem_singleton] at hcontra
            rw [hcontra] at hmem
            exact hnotmem hmem
          rw [hz, Nat.add_zero, ih3 j hjl]
        · subst hje
          have hget : ((runNodes13 provider cidr ms) ++
              [newNode13 provider cidr m ((runNodes13 provider cidr ms).length + 1)]).get
                ⟨(runNodes13 provider cidr ms).length, hj⟩ =
              newNode13 provider cidr m ((runNodes13 provider cidr ms).length + 1) :=
            list_get_concat_length _ _ hj
          rw [hget, newNode13_requestCount, newNode13_key, List.count_append,
            List.count_cons_self, List.count_nil,
            List.count_eq_zero_of_not_mem hnotmem]

/-- Witness for the amended C1 at a concrete run: a duplicated identity
plus one fresh identity; the first hop's hit count equals the number of
occurrences of its identity. -/
theorem c1_store_amended_witness :
    ((runNodes13 (fun _ => none) []
      [⟨"curl", "", "7.7.7.7"⟩, ⟨"curl", "", "7.7.7.7"⟩, ⟨"go-http-client", "", "6.6.6.6"⟩]).get
        ⟨0, by decide⟩).requestCount =
      (([⟨"curl", "", "7.7.7.7"⟩, ⟨"curl", "", "7.7.7.7"⟩, ⟨"go-http-client", "", "6.6.6.6"⟩] :
          List RequestHeaders).map keyOf13).count
        (nodeKeyOf13 ((runNodes13 (fun _ => none) []
          [⟨"curl", "", "7.7.7.7"⟩, ⟨"curl", "", "7.7.7.7"⟩, ⟨"go-http-client", "", "6.6.6.6"⟩]).get
            ⟨0, by decide⟩)) :=
  (c1_store_amended (fun _ => none) []
    [⟨"curl", "", "7.7.7.7"⟩, ⟨"curl", "", "7.7.7.7"⟩, ⟨"go-http-client", "", "6.6.6.6"⟩]).2.2
    0 (by decide)

/-! ## part_017 state machine lemmas -/

theorem run17_eq_from (evs : List Ev17) : run17 evs = run17From {} evs := rfl

theorem run17From_append (s : TState) (l1 l2 : List Ev17) :
    run17From s (l1 ++ l2) = run17From (run17From s l1) l2 := by
  simp [run17From, List.foldl_append]

theorem run17From_single (s : TState) (e : Ev17) :
    run17From s [e] = step17 s e := rfl

theorem step17_node (s : TState) (h : RequestHeaders) (hfin : s.finished = false) :
    (step17 s (.node h)).nodes = (handleNodeMessage17 s.nodes h).1 ∧
    (step17 s (.node h)).finished = false ∧
    (step17 s (.node h)).pending = s.pending ∧
    (step17 s (.node h)).waitForNode = s.waitForNode ∧
    s.timerGen ≤ (step17 s (.node h)).timerGen := by
  by_cases hw : s.waitForNode = true
  · refine ⟨?_, ?_, ?_, ?_, ?_⟩ <;> simp [step17, hfin, hw]
  · refine ⟨?_, ?_, ?_, ?_, ?_⟩ <;> simp [step17, hfin, hw]

theorem step17_api (s : TState) (c : String) (hfin : s.finished = false) :
    step17 s (.api c) =
      { s with pending := some c, waitForNode := true, timerGen := s.timerGen + 1 } := by
  simp [step17, hfin]

theorem step17_error (s : TState) (c : String) (hfin : s.finished = false) :
    step17 s (.error c) =
      { s with out := s.out ++ [.counts (requestCounts s.nodes), .errLine c],
               finished := true } := by
  simp [step17, hfin]

theorem step17_timerFire_fires (s : TState) (c : String) (hfin : s.finished = false)
    (hp : s.pending = some c) (hg : s.timerGen ≠ 0) :
    step17 s (.timerFire s.timerGen) =
      { s with
        out := s.out ++ [.raw "节点请求次数：", .counts (requestCounts s.nodes),
                         .response c] ++
               (if s.nodes.length == 0 then [.errLine "未检测到任何节点"] else []),
        finished := true } := by
  simp [step17, hfin, hp, hg]

theorem step17_timerFire_stale (s : TState) (g : Nat) (hne : g ≠ s.timerGen) :
    step17 s (.timerFire g) = s := by
  by_cases hfin : s.finished = true
  · simp [step17, hfin]
  · simp only [step17]
    rw [if_neg hfin]
    rw [if_neg (by simp [hne])]

theorem run17From_hops (hops : List RequestHeaders) :
    ∀ (s : TState), s.finished = false →
      (run17From s (hops.map Ev17.node)).finished = false ∧
      (run17From s (hops.map Ev17.node)).nodes = foldNodes17 s.nodes hops ∧
      (run17From s (hops.map Ev17.node)).pending = s.pending ∧
      (run17From s (hops.map Ev17.node)).waitForNode = s.waitForNode ∧
      s.timerGen ≤ (run17From s (hops.map Ev17.node)).timerGen := by
  induction hops with
  | nil =>
    intro s hfin
    exact ⟨hfin, rfl, rfl, rfl, Nat.le_refl _⟩
  | cons h hs ih =>
    intro s hfin
    obtain ⟨sn, sf, sp, sw, sg⟩ := step17_node s h hfin
    have hrun : run17From s ((h :: hs).map Ev17.node) =
        run17From (step17 s (.node h)) (hs.map Ev17.node) := rfl
    obtain ⟨if1, if2, if3, if4, if5⟩ := ih (step17 s (.node h)) sf
    refine ⟨?_, ?_, ?_, ?_, ?_⟩
    · rw [hrun]; exact if1
    · rw [hrun, if2, sn]
      rfl
    · rw [hrun, if3, sp]
    · rw [hrun, if4, sw]
    · rw [hrun]
      exact Nat.le_trans sg if5

theorem foldNodes17_append (init : List Node) (l1 l2 : List RequestHeaders) :
    foldNodes17 init (l1 ++ l2) = foldNodes17 (foldNodes17 init l1) l2 := by
  simp [foldNodes17, List.foldl_append]

/-! ## C2: first-outcome-wins -/

/-- C2: the claim that only the first Outcome is accepted and reported
fails on the `TraceManager` (part_017): a second API Outcome arriving
before the grace timer expires overwrites the pending one, so the trace
below — two API Outcomes and then the timer expiry — reports the second
Outcome's content, not the first's. -/
theorem c2_outcome_counterexample :
    (run17 [.api "first", .api "second", .timerFire 2]).finished = true ∧
    TOut.response "second" ∈ (run17 [.api "first", .api "second", .timerFire 2]).out ∧
    TOut.response "first" ∉ (run17 [.api "first", .api "second", .timerFire 2]).out := by
  refine ⟨?_, ?_, ?_⟩ <;> decide

/-- C2 (amended): once finalized, neither engine processes any further
event (no re-finalization, at most one report); in the `Manager`
(part_013) any first Outcome — API or error — finalizes immediately, so
the first Outcome is the one reported and later ones are never read;
in the `TraceManager` (part_017) an API Outcome arriving before the
grace timer expires replaces the pending one, so the reported Outcome is
the most recent one received before expiry rather than the first. -/
theorem c2_outcome_amended :
    (∀ (s : TState) (e : Ev17), s.finished = true → step17 s e = s) ∧
    (∀ (provider : String → Option IpInfo) (cidr : List String) (s : MState) (e : Ev13),
        s.done = true → step13 provider cidr s e = s) ∧
    (∀ (provider : String → Option IpInfo) (cidr : List String) (s : MState)
        (request response : String), s.done = false →
        (step13 provider cidr s (.api request response)).done = true) ∧
    (∀ (provider : String → Option IpInfo) (cidr : List String) (s : MState) (c : String),
        s.done = false → (step13 provider cidr s (.error c)).done = true) ∧
    (∀ (s : TState) (a b : String), s.finished = false →
        (step17 (step17 s (.api a)) (.api b)).pending = some b) := by
  refine ⟨?_, ?_, ?_, ?_, ?_⟩
  · intro s e h
    simp [step17, h]
  · intro provider cidr s e h
    simp [step13, h]
  · intro provider cidr s request response h
    simp only [step13, h]
    rw [if_neg (by simp)]
    by_cases hn : (s.nodes.length == 0) = true
    · rw [if_pos hn]
    · rw [if_neg hn]
  · intro provider cidr s c h
    simp only [step13, h]
    rw [if_neg (by simp)]
  · intro s a b h
    have e1 := step17_api s a h
    have h2 : (step17 s (.api a)).finished = false := by
      rw [e1]; exact h
    rw [step17_api (step17 s (.api a)) b h2]

/-- Witness for the amended C2: finalized states absorb events, a first
Outcome finalizes part_013's Manager, and the second API Outcome
overwrites the pending one in part_017's TraceManager. -/
theorem c2_outcome_amended_witness :
    step17 (run17 [.error "x"]) (.api "y") = run17 [.error "x"] ∧
    (step13 (fun _ => none) [] {} (.api "req" "resp")).done = true ∧
    (step17 (step17 {} (.api "a")) (.api "b")).pending = some "b" := by
  refine ⟨?_, ?_, ?_⟩
  · exact c2_outcome_amended.1 (run17 [.error "x"]) (.api "y") (by decide)
  · exact c2_outcome_amended.2.2.1 (fun _ => none) [] {} "req" "resp" rfl
  · exact c2_outcome_amended.2.2.2.2 {} "a" "b" rfl

/-! ## C3: grace window -/

/-- C3: the claim fails on the `Manager` (part_013), which has no grace
window: the API Outcome finalizes immediately, so a hop-seen event
arriving right after a Succeeded Outcome is dropped — the store below
keeps one hop, not the claimed two. -/
theorem c3_grace_counterexample :
    (run13 (fun _ => none) []
      [.node ⟨"ua1", "", "1.1.1.1"⟩, .api "req" "resp",
       .node ⟨"ua2", "", "2.2.2.2"⟩]).done = true ∧
    (run13 (fun _ => none) []
      [.node ⟨"ua1", "", "1.1.1.1"⟩, .api "req" "resp",
       .node ⟨"ua2", "", "2.2.2.2"⟩]).nodes.length = 1 ∧
    ¬ (run13 (fun _ => none) []
      [.node ⟨"ua1", "", "1.1.1.1"⟩, .api "req" "resp",
       .node ⟨"ua2", "", "2.2.2.2"⟩]).nodes.length = 2 := by
  refine ⟨?_, ?_, ?_⟩ <;> decide

/-- C3 (amended): the grace-window behaviour holds for the
`TraceManager` (part_017): after a Succeeded (API) Outcome, hop-seen
events are still processed exactly as before the Outcome (the final node
store is the plain fold over all hop events), the engine does not
finalize while hops keep arriving, a stale grace timer (superseded by a
hop arrival that re-armed it) is ignored, and when the current grace
timer expires the engine finalizes and the report carries every hop,
including the late arrivals; the `Manager` (part_013) instead finalizes
immediately on the Outcome and drops late hops. -/
theorem c3_grace_amended (hops1 hops2 : List RequestHeaders) (c : String) (tr : List Ev17)
    (htr : tr = hops1.map Ev17.node ++ Ev17.api c :: hops2.map Ev17.node) :
    (run17 tr).finished = false ∧
    (run17 tr).nodes = runNodes17 (hops1 ++ hops2) ∧
    (run17 (tr ++ [Ev17.timerFire (run17 tr).timerGen])).finished = true ∧
    (run17 (tr ++ [Ev17.timerFire (run17 tr).timerGen])).out =
      (run17 tr).out ++
        [TOut.raw "节点请求次数：", TOut.counts (requestCounts (runNodes17 (hops1 ++ hops2))),
         TOut.response c] ++
        (if (runNodes17 (hops1 ++ hops2)).length == 0
         then [TOut.errLine "未检测到任何节点"] else []) ∧
    (∀ (s : TState) (g : Nat), g ≠ s.timerGen → step17 s (.timerFire g) = s) := by
  obtain ⟨h1f, h1n, h1p, h1w, h1g⟩ :=
    run17From_hops hops1 ({} : TState) rfl
  have hpre : run17From ({} : TState) (hops1.map Ev17.node ++ Ev17.api c :: hops2.map Ev17.node) =
      run17From (step17 (run17From {} (hops1.map Ev17.node)) (.api c)) (hops2.map Ev17.node) := by
    rw [show hops1.map Ev17.node ++ Ev17.api c :: hops2.map Ev17.node =
        (hops1.map Ev17.node ++ [Ev17.api c]) ++ hops2.map Ev17.node by simp,
      run17From_append, run17From_append, run17From_single]
  have hapi := step17_api (run17From {} (hops1.map Ev17.node)) c h1f
  have hafter : (step17 (run17From {} (hops1.map Ev17.node)) (.api c)).finished = false := by
    rw [hapi]; exact h1f
  obtain ⟨h2f, h2n, h2p, h2w, h2g⟩ :=
    run17From_hops hops2 (step17 (run17From {} (hops1.map Ev17.node)) (.api c)) hafter
  have hrun : run17 tr =
      run17From (step17 (run17From {} (hops1.map Ev17.node)) (.api c)) (hops2.map Ev17.node) := by
    rw [htr, run17_eq_from, hpre]
  have hnodes : (run17 tr).nodes = runNodes17 (hops1 ++ hops2) := by
    rw [hrun, h2n, hapi]
    show foldNodes17 (run17From ({} : TState) (hops1.map Ev17.node)).nodes hops2 =
      runNodes17 (hops1 ++ hops2)
    rw [h1n]
    show foldNodes17 (foldNodes17 ({} : TState).nodes hops1) hops2 = runNodes17 (hops1 ++ hops2)
    rw [← foldNodes17_append]
    rfl
  have hfin : (run17 tr).finished = false := by rw [hrun]; exact h2f
  have hpend : (run17 tr).pending = some c := by
    rw [hrun, h2p, hapi]
  have hgen : (run17 tr).timerGen ≠ 0 := by
    have : (step17 (run17From {} (hops1.map Ev17.node)) (.api c)).timerGen =
        (run17From ({} : TState) (hops1.map Ev17.node)).timerGen + 1 := by
      rw [hapi]
    rw [hrun]
    intro hzero
    rw [hzero] at h2g
    rw [this] at h2g
    omega
  have hfire := step17_timerFire_fires (run17 tr) c hfin hpend hgen
  have hlast : run17 (tr ++ [Ev17.timerFire (run17 tr).timerGen]) =
      step17 (run17 tr) (.timerFire (run17 tr).timerGen) := by
    rw [run17_eq_from, run17From_append, run17From_single, ← run17_eq_from]
  refine ⟨hfin, hnodes, ?_, ?_, ?_⟩
  · rw [hlast, hfire]
  · rw [hlast, hfire, hnodes]
  · intro s g hne
    exact step17_timerFire_stale s g hne

/-- Witness for the amended C3: one hop before the Outcome, one late hop
after it; the late hop ends up in the node store. -/
theorem c3_grace_amended_witness :
    (run17 [Ev17.node ⟨"ua1", "", "1.1.1.1"⟩, Ev17.api "resp",
      Ev17.node ⟨"ua2", "", "2.2.2.2"⟩]).nodes =
      runNodes17 [⟨"ua1", "", "1.1.1.1"⟩, ⟨"ua2", "", "2.2.2.2"⟩] :=
  (c3_grace_amended [⟨"ua1", "", "1.1.1.1"⟩] [⟨"ua2", "", "2.2.2.2"⟩] "resp" _ rfl).2.1

/-! ## C4: zero hops still finalizes, surfaced explicitly -/

/-- C4: in part_013's `Manager`, when the node store is empty and an
Outcome arrives, the trace still finalizes: a Succeeded (API) Outcome
reports the explicit `未检测到任何节点` (no hops detected) error instead
of presenting the request/response as a success, and a Failed Outcome
reports the failure reason. -/
theorem c4_no_hops (provider : String → Option IpInfo) (cidr : List String) (s : MState)
    (request response reason : String) (hdone : s.done = false) (hempty : s.nodes = []) :
    (step13 provider cidr s (.api request response)).done = true ∧
    (step13 provider cidr s (.api request response)).out =
      s.out ++ [.title "请求响应", .errLine "未检测到任何节点"] ∧
    (∀ q r, OutLine.reqResp q r ∉ (step13 provider cidr s (.api request response)).out ∨
        OutLine.reqResp q r ∈ s.out) ∧
    (step13 provider cidr s (.error reason)).done = true ∧
    (step13 provider cidr s (.error reason)).out =
      s.out ++ [.title "请求响应", .errLine reason] := by
  have hapi : step13 provider cidr s (.api request response) =
      { s with out := s.out ++ [.title "请求响应", .errLine "未检测到任何节点"],
               done := true } := by
    simp [step13, hdone, hempty]
  have herr : step13 provider cidr s (.error reason) =
      { s with out := s.out ++ [.title "请求响应", .errLine reason], done := true } := by
    simp [step13, hdone]
  refine ⟨?_, ?_, ?_, ?_, ?_⟩
  · rw [hapi]
  · rw [hapi]
  · intro q r
    rw [hapi]
    by_cases hmem : OutLine.reqResp q r ∈ s.out
    · exact Or.inr hmem
    · refine Or.inl ?_
      intro hcontra
      simp only [List.mem_append] at hcontra
      rcases hcontra with hcontra | hcontra
      · exact hmem hcontra
      · simp at hcontra
  · rw [herr]
  · rw [herr]

/-- Witness for C4 at the initial state: zero hops, then an API Outcome,
and zero hops, then a Failed Outcome. -/
theorem c4_no_hops_witness :
    (step13 (fun _ => none) [] {} (.api "req" "resp")).done = true ∧
    (step13 (fun _ => none) [] {} (.api "req" "resp")).out =
      [.title "请求响应", .errLine "未检测到任何节点"] ∧
    (step13 (fun _ => none) [] {} (.error "timeout")).done = true ∧
    (step13 (fun _ => none) [] {} (.error "timeout")).out =
      [.title "请求响应", .errLine "timeout"] := by
  obtain ⟨h1, h2, _, h4, h5⟩ :=
    c4_no_hops (fun _ => none) [] {} "req" "resp" "timeout" rfl rfl
  exact ⟨h1, h2, h4, h5⟩

/-! ## C8: Failed Outcome handling -/

/-- C8: the claim that a Failed Outcome drains identically to a
Succeeded one fails on the `TraceManager` (part_017): an error Outcome
finalizes immediately while an API Outcome leaves the engine running in
its grace window, and consequently a hop arriving right after a Failed
Outcome is dropped while the same hop after a Succeeded Outcome is
recorded. -/
theorem c8_failed_counterexample :
    (step17 ({} : TState) (.error "provider error")).finished = true ∧
    (step17 ({} : TState) (.api "provider error")).finished = false ∧
    (run17 [.error "e", .node ⟨"ua1", "", "1.1.1.1"⟩]).nodes = [] ∧
    (run17 [.api "e", .node ⟨"ua1", "", "1.1.1.1"⟩]).nodes.length = 1 := by
  refine ⟨?_, ?_, ?_, ?_⟩ <;> decide

/-- C8 (amended): the Correlator handles a Failed Outcome totally (it
never fails itself): in the `TraceManager` any error Outcome in a
non-finalized state produces exactly one finalization, reporting the
node-request-count summary and then the failure reason, and leaves the
node store untouched — but unlike a Succeeded Outcome it finalizes
immediately, with no grace window, so it does not drain identically. -/
theorem c8_failed_amended (s : TState) (c : String) (hfin : s.finished = false) :
    (step17 s (.error c)).finished = true ∧
    (step17 s (.error c)).out = s.out ++ [.counts (requestCounts s.nodes), .errLine c] ∧
    (step17 s (.error c)).nodes = s.nodes ∧
    (step17 s (.api c)).finished = false ∧
    (step17 s (.api c)).pending = some c := by
  rw [step17_error s c hfin, step17_api s c hfin]
  exact ⟨rfl, rfl, rfl, hfin, rfl⟩

/-- Witness for the amended C8 at the initial state. -/
theorem c8_failed_amended_witness :
    (step17 ({} : TState) (.error "timeout")).finished = true ∧
    (step17 ({} : TState) (.error "timeout")).out =
      [TOut.counts (requestCounts []), TOut.errLine "timeout"] ∧
    (step17 ({} : TState) (.error "timeout")).nodes = [] ∧
    (step17 ({} : TState) (.api "timeout")).finished = false ∧
    (step17 ({} : TState) (.api "timeout")).pending = some "timeout" :=
  c8_failed_amended {} "timeout" rfl

/-! ## C9: single-flight bait payload -/

theorem runImages_inv (gen : Nat → Option (List Nat)) (expectedID : String)
    (htotal : ∀ k, (gen k).isSome = true) :
    ∀ (reqs : List String) (s : Srv) (rs : List ImgResp),
      ((s.cache = none → s.genCalls = 0 ∧ ∀ b, ImgResp.okBytes b ∉ rs) ∧
       (∀ img, s.cache = some img → s.genCalls ≤ 1 ∧
         ∀ b, ImgResp.okBytes b ∈ rs → b = img)) →
      (((reqs.foldl (fun acc r =>
            let q := handleImage gen expectedID acc.1 r
            (q.1, acc.2 ++ [q.2])) (s, rs)).1.cache = none →
          (reqs.foldl (fun acc r =>
            let q := handleImage gen expectedID acc.1 r
            (q.1, acc.2 ++ [q.2])) (s, rs)).1.genCalls = 0 ∧
          ∀ b, ImgResp.okBytes b ∉ (reqs.foldl (fun acc r =>
            let q := handleImage gen expectedID acc.1 r
            (q.1, acc.2 ++ [q.2])) (s, rs)).2) ∧
       (∀ img, (reqs.foldl (fun acc r =>
            let q := handleImage gen expectedID acc.1 r
            (q.1, acc.2 ++ [q.2])) (s, rs)).1.cache = some img →
          (reqs.foldl (fun acc r =>
            let q := handleImage gen expectedID acc.1 r
            (q.1, acc.2 ++ [q.2])) (s, rs)).1.genCalls ≤ 1 ∧
          ∀ b, ImgResp.okBytes b ∈ (reqs.foldl (fun acc r =>
            let q := handleImage gen expectedID acc.1 r
            (q.1, acc.2 ++ [q.2])) (s, rs)).2 → b = img)) := by
  intro reqs
  induction reqs with
  | nil => intro s rs hinv; exact hinv
  | cons r rest ih =>
    intro s rs hinv
    obtain ⟨hnone, hsome⟩ := hinv
    have hfold : (r :: rest).foldl (fun acc r =>
        let q := handleImage gen expectedID acc.1 r
        (q.1, acc.2 ++ [q.2])) (s, rs) =
        rest.foldl (fun acc r =>
          let q := handleImage gen expectedID acc.1 r
          (q.1, acc.2 ++ [q.2]))
          ((handleImage gen expectedID s r).1, rs ++ [(handleImage gen expectedID s r).2]) := rfl
    rw [hfold]
    apply ih
    by_cases hid : (r != expectedID) = true
    · have hstep : handleImage gen expectedID s r = (s, .notFound) := by
        simp [handleImage, hid]
      rw [hstep]
      constructor
      · intro hc
        obtain ⟨hg, hno⟩ := hnone hc
        refine ⟨hg, ?_⟩
        intro b hb
        rcases List.mem_append.mp hb with hb | hb
        · exact hno b hb
        · simp at hb
      · intro img hc
        obtain ⟨hg, heq⟩ := hsome img hc
        refine ⟨hg, ?_⟩
        intro b hb
        rcases List.mem_append.mp hb with hb | hb
        · exact heq b hb
        · simp at hb
    · cases hc : s.cache with
      | some img =>
        have hstep : handleImage gen expectedID s r = (s, .okBytes img) := by
          simp [handleImage, hid, hc]
        rw [hstep]
        constructor
        · intro hcontra
          rw [hcontra] at hc
          exact absurd hc (by simp)
        · intro img' hc'
          have himg : img' = img := by
            rw [hc] at hc'
            injection hc' with h
            exact h.symm
          subst himg
          obtain ⟨hg, heq⟩ := hsome img' hc'
          refine ⟨hg, ?_⟩
          intro b hb
          rcases List.mem_append.mp hb with hb | hb
          · exact heq b hb
          · rw [List.mem_singleton] at hb
            injection hb
      | none =>
        obtain ⟨hg0, hno⟩ := hnone hc
        cases hgen : gen s.genCalls with
        | none =>
          have := htotal s.genCalls
          rw [hgen] at this
          exact absurd this (by simp)
        | some img =>
          have hstep : handleImage gen expectedID s r =
              ({ cache := some img, genCalls := s.genCalls + 1 }, .okBytes img) := by
            simp [handleImage, hid, hc, hgen]
          rw [hstep]
          constructor
          · intro hcontra
            exact absurd hcontra (by simp)
          · intro img' hc'
            have himg : img' = img := by
              injection hc' with h
              exact h.symm
            subst himg
            refine ⟨by simp [hg0], ?_⟩
            intro b hb
            rcases List.mem_append.mp hb with hb | hb
            · exact absurd hb (hno b)
            · rw [List.mem_singleton] at hb
              injection hb

/-- C9: with the mutex-protected critical section serialized, the
captcha payload of `handleImage` is generated at most once over any
sequence of requests (provided the generator succeeds: a failed
generation leaves the cache empty and is retried), and every request
that is served payload bytes observes byte-identical bytes. -/
theorem c9_single_flight (gen : Nat → Option (List Nat)) (expectedID : String)
    (reqs : List String) (htotal : ∀ k, (gen k).isSome = true) :
    (runImages gen expectedID reqs).1.genCalls ≤ 1 ∧
    (∀ b1 b2 : List Nat, ImgResp.okBytes b1 ∈ (runImages gen expectedID reqs).2 →
      ImgResp.okBytes b2 ∈ (runImages gen expectedID reqs).2 → b1 = b2) := by
  have hinv := runImages_inv gen expectedID htotal reqs {} []
    (by
      constructor
      · intro _
        exact ⟨rfl, by intro b hb; simp at hb⟩
      · intro img hcontra
        exact absurd hcontra (by simp [Srv.cache]))
  obtain ⟨hnone, hsome⟩ := hinv
  have hruneq : runImages gen expectedID reqs =
      reqs.foldl (fun acc r =>
        let q := handleImage gen expectedID acc.1 r
        (q.1, acc.2 ++ [q.2])) (({} : Srv), ([] : List ImgResp)) := rfl
  cases hc : (runImages gen expectedID reqs).1.cache with
  | none =>
    obtain ⟨hg, hno⟩ := hnone (by rw [← hruneq]; exact hc)
    constructor
    · rw [hruneq] at hc ⊢
      omega
    · intro b1 b2 hb1 _
      rw [hruneq] at hb1
      exact absurd hb1 (hno b1)
  | some img =>
    obtain ⟨hg, heq⟩ := hsome img (by rw [← hruneq]; exact hc)
    constructor
    · rw [hruneq]
      exact hg
    · intro b1 b2 hb1 hb2
      rw [hruneq] at hb1 hb2
      rw [heq b1 hb1, heq b2 hb2]

/-- Witness for C9: three requests with the right token and one with a
wrong token; generation runs once and both served payloads coincide. -/
theorem c9_single_flight_witness :
    (runImages (fun _ => some [7, 7, 7]) "tok" ["tok", "tok", "bad", "tok"]).1.genCalls ≤ 1 ∧
    (∀ b1 b2 : List Nat,
      ImgResp.okBytes b1 ∈ (runImages (fun _ => some [7, 7, 7]) "tok"
        ["tok", "tok", "bad", "tok"]).2 →
      ImgResp.okBytes b2 ∈ (runImages (fun _ => some [7, 7, 7]) "tok"
        ["tok", "tok", "bad", "tok"]).2 → b1 = b2) :=
  c9_single_flight (fun _ => some [7, 7, 7]) "tok" ["tok", "tok", "bad", "tok"]
    (fun _ => rfl)

end CheckGpt
